import Mathlib

/-!
Shallow embedding of `src/sql_engine/src/dml/insert.rs` (`InsertCommand::execute`).

The file models the insert execution path of the SQL engine: scalar resolution of
value-list expressions, column mapping, row materialization, constraint validation,
key allocation and the final batch commit, together with the client messages sent
along the way.  External collaborators (the `sqlparser` AST, the `representation`
`Datum` type, the storage backend and the session sink) are modelled at their
interface boundary, following the source's usage and the spec's interface section.
Rust `panic!`/`unimplemented!`/`unwrap` aborts are modelled as an explicit
`ExecResult.panicked` outcome, and the backend failures the source propagates
to its caller (`table_columns(...)?` and the `Err(error) => Err(error)` arm of
`insert_into`) as an explicit `ExecResult.returnedErr` outcome.
-/

namespace InsertModel

/-- Scalar values of `sqlparser::ast::Value` as used by the insert path.
`Number` holds an arbitrary-precision numeral (modelled as `Int`),
`SingleQuotedString` a string, `Boolean` a boolean; `null` stands for
`Value::Null` (and behaves like every other variant the insert code does not
support: it falls into the `_ => unimplemented!` arm of the textual
conversion). -/
inductive Value where
  | number (n : Int)
  | singleQuoted (s : String)
  | boolean (b : Bool)
  | null
  deriving DecidableEq, Repr

/-- Cast target types (`sqlparser::ast::DataType`); the insert code only
inspects `DataType::Boolean`, every other type is matched by the wildcard. -/
inductive DataType where
  | boolean
  | otherType (s : String)
  deriving DecidableEq, Repr

/-- Unary operators (`sqlparser::ast::UnaryOperator`); the insert code only
inspects `UnaryOperator::Minus`. -/
inductive UnaryOperator where
  | minus
  | plus
  | notOp
  deriving DecidableEq, Repr

/-- Value-list cell expressions (`sqlparser::ast::Expr`), restricted to the
shapes the insert code distinguishes.  `binaryOp` carries an opaque tag: the
source never looks inside a `BinaryOp` expression, it hands the whole
expression to the external evaluator.  `otherExpr` stands for every remaining
shape (identifiers, function calls, subqueries, ...), which the source matches
with a final catch-all arm. -/
inductive Expr where
  | value (v : Value)
  | cast (e : Expr) (dataType : DataType)
  | unaryOp (op : UnaryOperator) (e : Expr)
  | binaryOp (tag : Nat)
  | otherExpr (text : String)
  deriving DecidableEq, Repr

/-- `bool::from_str` of Rust's standard library: accepts exactly "true" and
"false". -/
def boolFromStr (s : String) : Option Bool :=
  if s = "true" then some true
  else if s = "false" then some false
  else none

/-- Constraint violations (`sql_types::ConstraintError`). -/
inductive ConstraintError where
  | outOfRange
  | typeMismatch (value : String)
  | valueTooLong (len : Nat)
  deriving DecidableEq, Repr

/-- A table column (`storage::ColumnDefinition`), modelled at the interface the
insert code consumes: a name (`has_name` compares it exactly), the pg-type tag
produced by `sql_type().to_pg_types()`, and the SQL type's constraint as the
function `sql_type().constraint().validate` from textual form to an optional
violation (`none` = `Ok(())`). -/
structure ColumnDefinition where
  name : String
  pgType : String
  validate : String → Option ConstraintError

/-- One violation entry of the aggregated constraint diagnostic, as assembled
by `QueryErrorBuilder` in the `constraint_error_mapper` closure: each entry
carries the column's pg type, the column name and the 1-based row index. -/
inductive Violation where
  | outOfRange (pgType : String) (colName : String) (rowIndex : Nat)
  | typeMismatch (value : String) (pgType : String) (colName : String) (rowIndex : Nat)
  | stringLengthMismatch (pgType : String) (len : Nat) (colName : String) (rowIndex : Nat)
  deriving DecidableEq, Repr

/-- `constraint_error_mapper`: translate one collected `(ConstraintError,
ColumnDefinition)` pair at a 1-based row index into a diagnostic entry. -/
def mkViolation (e : ConstraintError) (cd : ColumnDefinition) (rowIndex : Nat) : Violation :=
  match e with
  | ConstraintError.outOfRange => Violation.outOfRange cd.pgType cd.name rowIndex
  | ConstraintError.typeMismatch v => Violation.typeMismatch v cd.pgType cd.name rowIndex
  | ConstraintError.valueTooLong len => Violation.stringLengthMismatch cd.pgType len cd.name rowIndex

/-- Error diagnostics built through `protocol::results::QueryErrorBuilder`.
The source formats some of them into strings (`syntax_error(format!(...))`);
the model keeps the data the format string interpolates. -/
inductive QueryError where
  | unsupportedCast (e : Expr) (dataType : DataType)
  | malformedUnary (op : UnaryOperator) (e : Expr)
  | unsupportedExpr (e : Expr)
  | schemaDoesNotExist (name : String)
  | tableDoesNotExist (name : String)
  | columnDoesNotExist (names : List String)
  | tooManyInsertExpressions
  | constraintViolations (entries : List Violation)
  | featureNotSupported (rawSql : String)
  deriving DecidableEq, Repr

/-- Messages delivered to the session sink (`session.send`).  `event n` is
`Ok(QueryEvent::RecordsInserted(n))`, `error e` is `Err(query_error)`.
`evaluatorMessage` — Modelled from the spec: the external binary-operator
evaluator (`ExpressionEvaluation`, not part of this repository's sources)
reports its own diagnostic to the same session before returning failure, so
the core "treats any non-empty failure as already reported to client". -/
inductive Message where
  | error (e : QueryError)
  | event (records : Nat)
  | evaluatorMessage
  deriving DecidableEq, Repr

/-- Outcome of one cell's scalar resolution (the big `match col` in the
per-line loop). -/
inductive CellRes where
  | ok (v : Value)
  | err (m : QueryError)
  | evalErr
  | panicked

/-- Resolve one value-list cell, mirroring the `match col { ... }` of the
source.  `eval` is the external evaluator consulted for `BinaryOp`
expressions; `CellRes.panicked` models the `bool::from_str(v).unwrap()` panic
on a quoted string that does not parse as a boolean. -/
def resolveCell (eval : Nat → Option Value) : Expr → CellRes
  | Expr.value v => CellRes.ok v
  | Expr.cast e dataType =>
    match e, dataType with
    | Expr.value (Value.boolean b), DataType.boolean => CellRes.ok (Value.boolean b)
    | Expr.value (Value.singleQuoted s), DataType.boolean =>
      match boolFromStr s with
      | some b => CellRes.ok (Value.boolean b)
      | none => CellRes.panicked
    | e, dataType => CellRes.err (QueryError.unsupportedCast e dataType)
  | Expr.unaryOp op e =>
    match op, e with
    | UnaryOperator.minus, Expr.value (Value.number n) => CellRes.ok (Value.number (-n))
    | op, e => CellRes.err (QueryError.malformedUnary op e)
  | Expr.binaryOp tag =>
    match eval tag with
    | some v => CellRes.ok v
    | none => CellRes.evalErr
  | e => CellRes.err (QueryError.unsupportedExpr e)

/-- Outcome of resolving one value-list line (`for col in line`): either all
its cells resolved, or the first failing cell ended the statement. -/
inductive LineRes where
  | ok (row : List Value)
  | err (m : QueryError)
  | evalErr
  | panicked
  deriving Repr

/-- Resolve one value-list line, first failure wins. -/
def resolveLine (eval : Nat → Option Value) : List Expr → LineRes
  | [] => LineRes.ok []
  | c :: cs =>
    match resolveCell eval c with
    | CellRes.ok v =>
      match resolveLine eval cs with
      | LineRes.ok row => LineRes.ok (v :: row)
      | r => r
    | CellRes.err m => LineRes.err m
    | CellRes.evalErr => LineRes.evalErr
    | CellRes.panicked => LineRes.panicked

/-- Outcome of resolving the whole statement's value lists (the outer
`for line in values` loop building `rows`). -/
inductive RowsRes where
  | ok (rows : List (List Value))
  | err (m : QueryError)
  | evalErr
  | panicked
  deriving Repr

/-- Resolve every value-list line in statement order, first failure wins. -/
def resolveRows (eval : Nat → Option Value) : List (List Expr) → RowsRes
  | [] => RowsRes.ok []
  | l :: ls =>
    match resolveLine eval l with
    | LineRes.ok row =>
      match resolveRows eval ls with
      | RowsRes.ok rows => RowsRes.ok (row :: rows)
      | r => r
    | LineRes.err m => RowsRes.err m
    | LineRes.evalErr => RowsRes.evalErr
    | LineRes.panicked => RowsRes.panicked

/-- A stored cell value (`representation::Datum`), at the granularity the
insert code uses: `Datum::from_null()` for untargeted positions and
`Datum::try_from(&value)` for supplied cells. -/
inductive Datum where
  | nullDatum
  | val (v : Value)
  deriving DecidableEq, Repr

/-- One record handed to the backend: the surrogate key (the source encodes
`next_key_id()` as big-endian bytes; the encoding is injective, so the model
keeps the `Nat`) and the full-width row (the source binary-packs it via
`Binary::pack`; the model keeps the `Datum` list). -/
abbrev EncodedRecord := Nat × List Datum

/-- Modelled from the spec: a backend-specific storage failure
(`kernel::SystemError`, not part of this repository's sources); the spec
types `table_columns` and `insert_into` as `Result` and says the failure's
"meaning is backend-specific" — the core never inspects it, only propagates
it, so an opaque payload suffices. -/
abbrev SystemError := String

/-- Modelled from the spec: the storage backend
(`storage::FrontendStorage`, not part of this repository's sources) behind
its consumed interface — `schema_exists`, `table_exists`, `table_columns`
and `insert_into` (both `Result`-returning per the spec's interface
section), and `next_key_id` (a monotonically increasing counter owned by
the backend).  `committed` records every successful `insert_into` call.
`columnsFailure` / `insertFailure` inject the backend-specific failure of
`table_columns` / `insert_into`; each of those operations is called at most
once per statement, so one optional failure per operation represents every
backend behaviour a single statement can observe. -/
structure Storage where
  schemas : List String
  tables : List (String × String × List ColumnDefinition)
  keyCounter : Nat
  committed : List (String × String × List EncodedRecord)
  columnsFailure : Option SystemError
  insertFailure : Option SystemError

/-- `schema_exists(schema_name)`. -/
def Storage.schemaExists (st : Storage) (schemaName : String) : Bool :=
  st.schemas.any (fun s => s = schemaName)

/-- Lookup of a table's column definitions. -/
def Storage.tableLookup (st : Storage) (schemaName tableName : String) :
    Option (List ColumnDefinition) :=
  (st.tables.find? (fun t => t.1 = schemaName && t.2.1 = tableName)).map (fun t => t.2.2)

/-- `table_exists(schema_name, table_name)`. -/
def Storage.tableExists (st : Storage) (schemaName tableName : String) : Bool :=
  (st.tableLookup schemaName tableName).isSome

/-- The column definitions `table_columns` yields on success. -/
def Storage.tableColumnList (st : Storage) (schemaName tableName : String) :
    List ColumnDefinition :=
  (st.tableLookup schemaName tableName).getD []

/-- `table_columns(schema_name, table_name)`: `Result`-returning per the
spec's interface section; the source propagates its failure to the caller
with `?`. -/
def Storage.tableColumns (st : Storage) (schemaName tableName : String) :
    Except SystemError (List ColumnDefinition) :=
  match st.columnsFailure with
  | some e => Except.error e
  | none => Except.ok (st.tableColumnList schemaName tableName)

/-- `next_key_id()`: yields the current key and advances the counter. -/
def Storage.nextKeyId (st : Storage) : Nat × Storage :=
  (st.keyCounter, { st with keyCounter := st.keyCounter + 1 })

/-- `insert_into(schema_name, table_name, to_write)`: on success records the
batch and returns the count written; on failure returns the backend-specific
error, which the source hands back to its caller
(`Err(error) => Err(error)`). -/
def Storage.insertInto (st : Storage) (schemaName tableName : String)
    (toWrite : List EncodedRecord) : Except SystemError (Nat × Storage) :=
  match st.insertFailure with
  | some e => Except.error e
  | none =>
    Except.ok
      (toWrite.length,
        { st with committed := st.committed ++ [(schemaName, tableName, toWrite)] })

/-- `column_definition.has_name(&column_name)`: exact name comparison. -/
def ColumnDefinition.hasName (cd : ColumnDefinition) (columnName : String) : Bool :=
  cd.name = columnName

/-- `.enumerate()` starting at `i`. -/
def enumFrom (i : Nat) : List ColumnDefinition → List (Nat × ColumnDefinition)
  | [] => []
  | c :: cs => (i, c) :: enumFrom (i + 1) cs

/-- The inner search of the explicit-column branch: the first table column
(in table order) whose name matches, with its position. -/
def findCol (allColumns : List ColumnDefinition) (columnName : String) :
    Option (Nat × ColumnDefinition) :=
  (enumFrom 0 allColumns).find? (fun ic => ic.2.hasName columnName)

/-- The explicit-column resolution loop (`for column_name in column_names`):
returns the resolved `(index, ColumnDefinition)` pairs in the statement's
listed order together with the `non_existing_cols` list. -/
def resolveColumns (allColumns : List ColumnDefinition) :
    List String → List (Nat × ColumnDefinition) × List String
  | [] => ([], [])
  | n :: ns =>
    let rest := resolveColumns allColumns ns
    match findCol allColumns n with
    | some ic => (ic :: rest.1, rest.2)
    | none => (rest.1, n :: rest.2)

/-- The textual form of a cell value (`let v = match item { ... }` in the
validation loop): `none` models the `_ => unimplemented!("other types not
implemented")` panic for every value that is neither a number, a
single-quoted string nor a boolean. -/
def valueText : Value → Option String
  | Value.number n => some (toString n)
  | Value.singleQuoted s => some s
  | Value.boolean b => some (toString b)
  | Value.null => none

/-- The per-cell validation loop over `row.iter().zip(index_columns.iter())`:
threads the full-width `record` and the `errors` vector; returns `none` when
the textual conversion panics. -/
def validateCells :
    List (Value × Nat × ColumnDefinition) → List Datum →
    List (ConstraintError × ColumnDefinition) →
    Option (List Datum × List (ConstraintError × ColumnDefinition))
  | [], record, errors => some (record, errors)
  | (item, index, cd) :: rest, record, errors =>
    match valueText item with
    | none => none
    | some v =>
      match cd.validate v with
      | none => validateCells rest (record.set index (Datum.val item)) errors
      | some e => validateCells rest record (errors ++ [(e, cd)])

/-- Validation of one whole row against the table: full-width record
initialized to nulls, then the zip loop. -/
def rowCheck (allColumns : List ColumnDefinition)
    (indexColumns : List (Nat × ColumnDefinition)) (row : List Value) :
    Option (List Datum × List (ConstraintError × ColumnDefinition)) :=
  validateCells (row.zip indexColumns) (List.replicate allColumns.length Datum.nullDatum) []

/-- Outcome of the per-row loop (`for (row_index, row) in rows.iter().enumerate()`):
either every row was prepared, or a diagnostic ended the statement, or a
panic aborted it.  The storage is threaded because `next_key_id` mutates the
key counter. -/
inductive RowsOutcome where
  | prepared (toWrite : List EncodedRecord) (st : Storage)
  | diag (m : QueryError) (st : Storage)
  | panicked (st : Storage)

/-- The per-row loop: width check against the table's column count, key
allocation, materialization + validation, aggregation of the row's
constraint errors. -/
def processRows (allColumns : List ColumnDefinition)
    (indexColumns : List (Nat × ColumnDefinition)) :
    List (List Value) → Nat → Storage → List EncodedRecord → RowsOutcome
  | [], _, st, toWrite => RowsOutcome.prepared toWrite st
  | row :: rest, rowIndex, st, toWrite =>
    if row.length > allColumns.length then
      RowsOutcome.diag QueryError.tooManyInsertExpressions st
    else
      let key := st.keyCounter
      let st' : Storage := { st with keyCounter := st.keyCounter + 1 }
      match rowCheck allColumns indexColumns row with
      | none => RowsOutcome.panicked st'
      | some (record, errors) =>
        if errors.isEmpty then
          processRows allColumns indexColumns rest (rowIndex + 1) st'
            (toWrite ++ [(key, record)])
        else
          RowsOutcome.diag
            (QueryError.constraintViolations
              (errors.map (fun p => mkViolation p.1 p.2 (rowIndex + 1)))) st'

/-- The body of the parsed insert statement (`sqlparser::ast::SetExpr`):
either a literal value list (`SetExpr::Values`) or any other query shape
(`INSERT ... SELECT`, ...), which the source rejects wholesale. -/
inductive SetExpr where
  | values (lines : List (List Expr))
  | otherBody
  deriving Repr

/-- The planned insert (`query::plan::TableInserts`): target schema and table
names, the explicit column list (the source immediately reduces each
`sqlparser::ast::Ident` to its `value` string, so the model holds the
strings), and the statement body. -/
structure TableInserts where
  schemaName : String
  tableName : String
  columnIndices : List String
  body : SetExpr

/-- How `InsertCommand::execute` returned: `returnedOk` models `Ok(())`
(a terminal message was sent, or the evaluator reported the failure),
`returnedErr` models `Err(error)` — a backend failure propagated to the
caller (the `?` on `table_columns` or the `Err(error) => Err(error)` arm of
`insert_into`), with no client event — and `panicked` models a Rust panic
(`unimplemented!` or `unwrap` on `Err`). -/
inductive ExecResult where
  | returnedOk
  | returnedErr (e : SystemError)
  | panicked
  deriving DecidableEq, Repr

/-- `InsertCommand::execute`, mirroring the source's control flow: column-name
extraction, per-cell scalar resolution, schema and table existence checks,
explicit-column resolution, the per-row width/validation loop, and the final
`insert_into`.  Returns how the call ended, the messages sent to the session
sink in order, and the final storage state. -/
def execute (eval : Nat → Option Value) (rawSql : String) (ti : TableInserts)
    (st : Storage) : ExecResult × List Message × Storage :=
  match ti.body with
  | SetExpr.values lines =>
    let columnNames := ti.columnIndices
    match resolveRows eval lines with
    | RowsRes.err m => (ExecResult.returnedOk, [Message.error m], st)
    | RowsRes.evalErr => (ExecResult.returnedOk, [Message.evaluatorMessage], st)
    | RowsRes.panicked => (ExecResult.panicked, [], st)
    | RowsRes.ok rows =>
      if ¬ st.schemaExists ti.schemaName then
        (ExecResult.returnedOk,
          [Message.error (QueryError.schemaDoesNotExist ti.schemaName)], st)
      else if ¬ st.tableExists ti.schemaName ti.tableName then
        (ExecResult.returnedOk,
          [Message.error
            (QueryError.tableDoesNotExist (ti.schemaName ++ "." ++ ti.tableName))], st)
      else
        match st.tableColumns ti.schemaName ti.tableName with
        | Except.error e => (ExecResult.returnedErr e, [], st)
        | Except.ok allColumns =>
          let resolved :=
            if columnNames.isEmpty then (enumFrom 0 allColumns, [])
            else resolveColumns allColumns columnNames
          if ¬ resolved.2.isEmpty then
            (ExecResult.returnedOk,
              [Message.error (QueryError.columnDoesNotExist resolved.2)], st)
          else
            let indexColumns := resolved.1
            let outcome :=
              if st.tableExists ti.schemaName ti.tableName then
                processRows allColumns indexColumns rows 0 st []
              else
                RowsOutcome.prepared [] st
            match outcome with
            | RowsOutcome.diag m st' => (ExecResult.returnedOk, [Message.error m], st')
            | RowsOutcome.panicked st' => (ExecResult.panicked, [], st')
            | RowsOutcome.prepared toWrite st' =>
              match st'.insertInto ti.schemaName ti.tableName toWrite with
              | Except.error e => (ExecResult.returnedErr e, [], st')
              | Except.ok (size, st'') =>
                (ExecResult.returnedOk, [Message.event size], st'')
  | SetExpr.otherBody =>
    (ExecResult.returnedOk,
      [Message.error (QueryError.featureNotSupported rawSql)], st)

/-- A row passes the per-row phase without incident: it is no wider than the
table and its validation produces no constraint error (and no panic). -/
def rowValidB (allColumns : List ColumnDefinition)
    (indexColumns : List (Nat × ColumnDefinition)) (row : List Value) : Bool :=
  decide (row.length ≤ allColumns.length) &&
    (match rowCheck allColumns indexColumns row with
     | some (_, errors) => errors.isEmpty
     | none => false)

/-- The full-width record a row's validation produces (total helper; the
default is never reached for rows whose `rowCheck` succeeds). -/
def recordOf (allColumns : List ColumnDefinition)
    (indexColumns : List (Nat × ColumnDefinition)) (row : List Value) : List Datum :=
  ((rowCheck allColumns indexColumns row).getD
    (List.replicate allColumns.length Datum.nullDatum, [])).1

/-- The `(key, record)` pairs a run of valid rows appends to `to_write`,
keyed consecutively from `k`. -/
def preparedRecords (allColumns : List ColumnDefinition)
    (indexColumns : List (Nat × ColumnDefinition)) :
    List (List Value) → Nat → List EncodedRecord
  | [], _ => []
  | r :: rs, k =>
    (k, recordOf allColumns indexColumns r) ::
      preparedRecords allColumns indexColumns rs (k + 1)

/-! ### Concrete instances used to evaluate the model -/

/-- An evaluator instance that rejects every binary expression. -/
def evalReject : Nat → Option Value := fun _ => none

/-- A column whose constraint accepts every textual form. -/
def intColumn (n : String) : ColumnDefinition :=
  { name := n, pgType := "int4", validate := fun _ => none }

/-- A column whose constraint rejects every textual form as out of range. -/
def rangeColumn (n : String) : ColumnDefinition :=
  { name := n, pgType := "int2", validate := fun _ => some ConstraintError.outOfRange }

/-- A backend with no schemas at all. -/
def emptyStorage : Storage := ⟨[], [], 0, [], none, none⟩

/-- A backend holding schema `s` with no tables. -/
def schemaOnlyStorage : Storage := ⟨["s"], [], 0, [], none, none⟩

/-- A backend holding table `s.t` with two permissive integer columns. -/
def twoColStorage : Storage :=
  ⟨["s"], [("s", "t", [intColumn "a", intColumn "b"])], 0, [], none, none⟩

/-- A backend holding table `s.t` with two columns that reject every value. -/
def badColStorage : Storage :=
  ⟨["s"], [("s", "t", [rangeColumn "a", rangeColumn "b"])], 0, [], none, none⟩

/-- A column whose constraint rejects exactly the textual form `2`. -/
def fussyColumn (n : String) : ColumnDefinition :=
  { name := n, pgType := "int4",
    validate := fun s => if s = "2" then some ConstraintError.outOfRange else none }

/-- A backend holding table `s.t` whose first column rejects the value `2`. -/
def mixedColStorage : Storage :=
  ⟨["s"], [("s", "t", [fussyColumn "a", intColumn "b"])], 0, [], none, none⟩

/-- A backend holding table `s.t` whose `insert_into` fails with a
backend-specific error. -/
def insertFailStorage : Storage :=
  ⟨["s"], [("s", "t", [intColumn "a", intColumn "b"])], 0, [], none, some "io error"⟩

/-! ### Claim theorems -/

/-- C2: at the failing input `CAST('abc' AS BOOLEAN)` — a single-quoted string
that does not parse as a boolean, cast to boolean — execution panics
(`bool::from_str(v).unwrap()` on an `Err`) before any existence check, sends
no message at all, and leaves storage untouched; the claim instead requires
an "unsupported cast" diagnostic and that execution never panics. -/
theorem cast_of_unparsable_string_panics :
    execute evalReject "q"
      ⟨"s", "t", [],
        SetExpr.values [[Expr.cast (Expr.value (Value.singleQuoted "abc")) DataType.boolean]]⟩
      twoColStorage = (ExecResult.panicked, [], twoColStorage) := rfl

/-- C9: a well-formed insert into the existing table `s.t` whose second cell
is a `NULL` literal reaches the `_ => unimplemented!("other types not
implemented")` arm of the textual conversion during validation: execution
panics, no terminal message is sent, and nothing is committed (the key
counter has already been advanced for the row). -/
theorem null_literal_validation_panics :
    execute evalReject "q"
      ⟨"s", "t", [],
        SetExpr.values [[Expr.value (Value.number 7), Expr.value Value.null]]⟩
      twoColStorage =
    (ExecResult.panicked, [], { twoColStorage with keyCounter := 1 }) := rfl

/-- C1 counterexample: an insert targeting the nonexistent schema `s` whose
value list holds the unsupported cast `CAST(1 AS BOOLEAN)` produces the
unsupported-cast diagnostic, not the schema-does-not-exist one: per-row
expression resolution runs before the existence preconditions are checked. -/
theorem missing_schema_cast_error_reports_cast :
    emptyStorage.schemaExists "s" = false ∧
    execute evalReject "q"
      ⟨"s", "t", [],
        SetExpr.values [[Expr.cast (Expr.value (Value.number 1)) DataType.boolean]]⟩
      emptyStorage =
      (ExecResult.returnedOk,
        [Message.error
          (QueryError.unsupportedCast (Expr.value (Value.number 1)) DataType.boolean)],
        emptyStorage) :=
  ⟨rfl, rfl⟩

/-- C1 (amended): for every insert statement whose value-list expressions all
resolve, targeting a nonexistent schema — or an existing schema but
nonexistent table — exactly one diagnostic of the corresponding kind is
produced and storage is returned unchanged (nothing validated, no key
consumed, nothing committed).  The existence preconditions are, however,
checked only after per-row expression resolution. -/
theorem missing_schema_or_table_diagnostic (eval : Nat → Option Value)
    (raw sc tn : String) (colNames : List String) (lines : List (List Expr))
    (st : Storage) (rows : List (List Value))
    (hres : resolveRows eval lines = RowsRes.ok rows) :
    (st.schemaExists sc = false →
      execute eval raw ⟨sc, tn, colNames, SetExpr.values lines⟩ st =
        (ExecResult.returnedOk,
          [Message.error (QueryError.schemaDoesNotExist sc)], st)) ∧
    (st.schemaExists sc = true → st.tableExists sc tn = false →
      execute eval raw ⟨sc, tn, colNames, SetExpr.values lines⟩ st =
        (ExecResult.returnedOk,
          [Message.error (QueryError.tableDoesNotExist (sc ++ "." ++ tn))], st)) := by
  constructor
  · intro h1
    simp [execute, hres, h1]
  · intro h1 h2
    simp [execute, hres, h1, h2]

/-- C1 witness: the amended theorem applied to a concrete statement, once
against a backend without the schema and once against a backend with the
schema but not the table. -/
theorem missing_schema_or_table_diagnostic_witness :
    (emptyStorage.schemaExists "s" = false →
      execute evalReject "q" ⟨"s", "t", [], SetExpr.values [[Expr.value (Value.number 1)]]⟩
        emptyStorage =
        (ExecResult.returnedOk,
          [Message.error (QueryError.schemaDoesNotExist "s")], emptyStorage)) ∧
    ((schemaOnlyStorage.schemaExists "s" = true →
        schemaOnlyStorage.tableExists "s" "t" = false →
        execute evalReject "q" ⟨"s", "t", [], SetExpr.values [[Expr.value (Value.number 1)]]⟩
          schemaOnlyStorage =
          (ExecResult.returnedOk,
            [Message.error (QueryError.tableDoesNotExist ("s" ++ "." ++ "t"))],
            schemaOnlyStorage)) ∧
      emptyStorage.schemaExists "s" = false ∧
      schemaOnlyStorage.schemaExists "s" = true ∧
      schemaOnlyStorage.tableExists "s" "t" = false) :=
  ⟨(missing_schema_or_table_diagnostic evalReject "q" "s" "t" []
      [[Expr.value (Value.number 1)]] emptyStorage [[Value.number 1]] rfl).1,
   (missing_schema_or_table_diagnostic evalReject "q" "s" "t" []
      [[Expr.value (Value.number 1)]] schemaOnlyStorage [[Value.number 1]] rfl).2,
   rfl, rfl, rfl⟩

/-! ### Lemmas about the per-row loop -/

theorem processRows_valid_run (allColumns : List ColumnDefinition)
    (indexColumns : List (Nat × ColumnDefinition)) (good rest : List (List Value))
    (hgood : ∀ r ∈ good, rowValidB allColumns indexColumns r = true) :
    ∀ (idx : Nat) (st : Storage) (tw : List EncodedRecord),
    processRows allColumns indexColumns (good ++ rest) idx st tw =
      processRows allColumns indexColumns rest (idx + good.length)
        { st with keyCounter := st.keyCounter + good.length }
        (tw ++ preparedRecords allColumns indexColumns good st.keyCounter) := by
  induction good with
  | nil =>
    intro idx st tw
    simp [preparedRecords]
  | cons r rs ih =>
    intro idx st tw
    have hr := hgood r (by simp)
    simp only [rowValidB, Bool.and_eq_true, decide_eq_true_eq] at hr
    obtain ⟨hlen, hchk⟩ := hr
    cases hc : rowCheck allColumns indexColumns r with
    | none => rw [hc] at hchk; simp at hchk
    | some p =>
      obtain ⟨rec, errors⟩ := p
      rw [hc] at hchk
      simp only [List.isEmpty_iff] at hchk
      subst hchk
      have hstep :
          processRows allColumns indexColumns ((r :: rs) ++ rest) idx st tw =
            processRows allColumns indexColumns (rs ++ rest) (idx + 1)
              { st with keyCounter := st.keyCounter + 1 }
              (tw ++ [(st.keyCounter, rec)]) := by
        simp only [List.cons_append, processRows]
        rw [if_neg (by omega), hc]
        simp
      rw [hstep, ih (fun r hr => hgood r (by simp [hr])) (idx + 1) _ _]
      have hrec : recordOf allColumns indexColumns r = rec := by
        simp [recordOf, hc]
      simp only [preparedRecords, hrec, List.length_cons]
      congr 1
      · omega
      · congr 1
        omega
      · simp

theorem processRows_first_invalid (allColumns : List ColumnDefinition)
    (indexColumns : List (Nat × ColumnDefinition)) (bad : List Value)
    (rest : List (List Value)) (idx : Nat) (st : Storage) (tw : List EncodedRecord)
    (rec : List Datum) (errs : List (ConstraintError × ColumnDefinition))
    (hlen : bad.length ≤ allColumns.length)
    (hchk : rowCheck allColumns indexColumns bad = some (rec, errs))
    (hne : errs ≠ []) :
    processRows allColumns indexColumns (bad :: rest) idx st tw =
      RowsOutcome.diag
        (QueryError.constraintViolations
          (errs.map (fun p => mkViolation p.1 p.2 (idx + 1))))
        { st with keyCounter := st.keyCounter + 1 } := by
  simp only [processRows]
  rw [if_neg (by omega), hchk]
  simp [List.isEmpty_iff, hne]

theorem processRows_too_wide (allColumns : List ColumnDefinition)
    (indexColumns : List (Nat × ColumnDefinition)) (wide : List Value)
    (rest : List (List Value)) (idx : Nat) (st : Storage) (tw : List EncodedRecord)
    (hwide : wide.length > allColumns.length) :
    processRows allColumns indexColumns (wide :: rest) idx st tw =
      RowsOutcome.diag QueryError.tooManyInsertExpressions st := by
  simp only [processRows]
  rw [if_pos hwide]

/-- Unfolding of `execute` once the statement has reached the per-row loop:
expressions resolved, schema and table exist, the column list resolved with
no missing name. -/
theorem execute_values_eq (eval : Nat → Option Value) (raw sc tn : String)
    (colNames : List String) (lines : List (List Expr)) (st : Storage)
    (rows : List (List Value)) (icols : List (Nat × ColumnDefinition))
    (hres : resolveRows eval lines = RowsRes.ok rows)
    (hschema : st.schemaExists sc = true)
    (htable : st.tableExists sc tn = true)
    (hcf : st.columnsFailure = none)
    (hcols : (if colNames.isEmpty then (enumFrom 0 (st.tableColumnList sc tn), ([] : List String))
              else resolveColumns (st.tableColumnList sc tn) colNames) = (icols, [])) :
    execute eval raw ⟨sc, tn, colNames, SetExpr.values lines⟩ st =
      match processRows (st.tableColumnList sc tn) icols rows 0 st [] with
      | RowsOutcome.diag m st' => (ExecResult.returnedOk, [Message.error m], st')
      | RowsOutcome.panicked st' => (ExecResult.panicked, [], st')
      | RowsOutcome.prepared tw st' =>
        match st'.insertInto sc tn tw with
        | Except.error e => (ExecResult.returnedErr e, [], st')
        | Except.ok (size, st'') => (ExecResult.returnedOk, [Message.event size], st'') := by
  have hcols' : (if colNames = [] then (enumFrom 0 (st.tableColumnList sc tn), ([] : List String))
                 else resolveColumns (st.tableColumnList sc tn) colNames) = (icols, []) := by
    simpa [List.isEmpty_iff] using hcols
  cases hout : processRows (st.tableColumnList sc tn) icols rows 0 st [] with
  | prepared tw st' =>
    cases hins : st'.insertInto sc tn tw with
    | error e =>
      simp [execute, hres, hschema, htable, Storage.tableColumns, hcf, hcols', hout, hins]
    | ok p =>
      obtain ⟨size, st''⟩ := p
      simp [execute, hres, hschema, htable, Storage.tableColumns, hcf, hcols', hout, hins]
  | diag m st' =>
    simp [execute, hres, hschema, htable, Storage.tableColumns, hcf, hcols', hout]
  | panicked st' =>
    simp [execute, hres, hschema, htable, Storage.tableColumns, hcf, hcols', hout]

/-- C3: when the rows before `bad` all validate and `bad` is the first row
with constraint violations (`errs`, all of them collected by the per-cell
loop before any diagnostic), the statement sends exactly one aggregated
diagnostic referencing every violation of that row — each entry carrying the
column's name and the 1-based row index `good.length + 1`, the row's position
in the statement — and commits nothing: the final storage differs from the
initial one only in the key counter. -/
theorem first_invalid_row_aggregated_diagnostic (eval : Nat → Option Value)
    (raw sc tn : String) (colNames : List String) (lines : List (List Expr))
    (st : Storage) (rows good rest : List (List Value)) (bad : List Value)
    (icols : List (Nat × ColumnDefinition)) (rec : List Datum)
    (errs : List (ConstraintError × ColumnDefinition))
    (hres : resolveRows eval lines = RowsRes.ok rows)
    (hschema : st.schemaExists sc = true)
    (htable : st.tableExists sc tn = true)
    (hcf : st.columnsFailure = none)
    (hcols : (if colNames.isEmpty then (enumFrom 0 (st.tableColumnList sc tn), ([] : List String))
              else resolveColumns (st.tableColumnList sc tn) colNames) = (icols, []))
    (hrows : rows = good ++ bad :: rest)
    (hgood : ∀ r ∈ good, rowValidB (st.tableColumnList sc tn) icols r = true)
    (hlen : bad.length ≤ (st.tableColumnList sc tn).length)
    (hchk : rowCheck (st.tableColumnList sc tn) icols bad = some (rec, errs))
    (hne : errs ≠ []) :
    execute eval raw ⟨sc, tn, colNames, SetExpr.values lines⟩ st =
      (ExecResult.returnedOk,
        [Message.error
          (QueryError.constraintViolations
            (errs.map (fun p => mkViolation p.1 p.2 (good.length + 1))))],
        { st with keyCounter := st.keyCounter + good.length + 1 }) := by
  rw [execute_values_eq eval raw sc tn colNames lines st rows icols hres hschema htable hcf hcols]
  subst hrows
  rw [processRows_valid_run _ _ good (bad :: rest) hgood 0 st []]
  rw [processRows_first_invalid _ _ bad rest _ _ _ rec errs hlen hchk hne]
  simp [Nat.add_assoc]

/-- C3 witness: a two-column table whose columns both reject every value; the
single row produces two violations, aggregated into one diagnostic with row
index 1 and both column names; nothing is committed. -/
theorem first_invalid_row_aggregated_diagnostic_witness :
    execute evalReject "q"
      ⟨"s", "t", [],
        SetExpr.values [[Expr.value (Value.number 5), Expr.value (Value.number 6)]]⟩
      badColStorage =
      (ExecResult.returnedOk,
        [Message.error
          (QueryError.constraintViolations
            [Violation.outOfRange "int2" "a" 1, Violation.outOfRange "int2" "b" 1])],
        { badColStorage with keyCounter := 1 }) :=
  first_invalid_row_aggregated_diagnostic evalReject "q" "s" "t" []
    [[Expr.value (Value.number 5), Expr.value (Value.number 6)]] badColStorage
    [[Value.number 5, Value.number 6]] [] [] [Value.number 5, Value.number 6]
    [(0, rangeColumn "a"), (1, rangeColumn "b")]
    [Datum.nullDatum, Datum.nullDatum]
    [(ConstraintError.outOfRange, rangeColumn "a"),
     (ConstraintError.outOfRange, rangeColumn "b")]
    rfl rfl rfl rfl rfl rfl (by simp) (by decide) rfl (List.cons_ne_nil _ _)

/-- C4: a value-list line wider than the table's column count aborts the
statement with the `TooManyExpressions` diagnostic even when the lines before
it were valid and already prepared; the final storage keeps the initial
committed list, so zero rows of the statement are committed and no record was
handed to storage. -/
theorem too_many_expressions_aborts_batch (eval : Nat → Option Value)
    (raw sc tn : String) (colNames : List String) (lines : List (List Expr))
    (st : Storage) (rows good rest : List (List Value)) (wide : List Value)
    (icols : List (Nat × ColumnDefinition))
    (hres : resolveRows eval lines = RowsRes.ok rows)
    (hschema : st.schemaExists sc = true)
    (htable : st.tableExists sc tn = true)
    (hcf : st.columnsFailure = none)
    (hcols : (if colNames.isEmpty then (enumFrom 0 (st.tableColumnList sc tn), ([] : List String))
              else resolveColumns (st.tableColumnList sc tn) colNames) = (icols, []))
    (hrows : rows = good ++ wide :: rest)
    (hgood : ∀ r ∈ good, rowValidB (st.tableColumnList sc tn) icols r = true)
    (hwide : wide.length > (st.tableColumnList sc tn).length) :
    execute eval raw ⟨sc, tn, colNames, SetExpr.values lines⟩ st =
      (ExecResult.returnedOk,
        [Message.error QueryError.tooManyInsertExpressions],
        { st with keyCounter := st.keyCounter + good.length }) := by
  rw [execute_values_eq eval raw sc tn colNames lines st rows icols hres hschema htable hcf hcols]
  subst hrows
  rw [processRows_valid_run _ _ good (wide :: rest) hgood 0 st []]
  rw [processRows_too_wide _ _ wide rest _ _ _ hwide]

/-- C4 witness: the first line is valid (and prepared), the second line has
three cells against a two-column table; the statement ends with the
`TooManyExpressions` diagnostic, one key consumed for the valid line, and
nothing committed. -/
theorem too_many_expressions_aborts_batch_witness :
    execute evalReject "q"
      ⟨"s", "t", [],
        SetExpr.values
          [[Expr.value (Value.number 1)],
           [Expr.value (Value.number 1), Expr.value (Value.number 2),
            Expr.value (Value.number 3)]]⟩
      twoColStorage =
      (ExecResult.returnedOk,
        [Message.error QueryError.tooManyInsertExpressions],
        { twoColStorage with keyCounter := 1 }) :=
  too_many_expressions_aborts_batch evalReject "q" "s" "t" []
    [[Expr.value (Value.number 1)],
     [Expr.value (Value.number 1), Expr.value (Value.number 2),
      Expr.value (Value.number 3)]]
    twoColStorage
    [[Value.number 1], [Value.number 1, Value.number 2, Value.number 3]]
    [[Value.number 1]] [] [Value.number 1, Value.number 2, Value.number 3]
    [(0, intColumn "a"), (1, intColumn "b")]
    rfl rfl rfl rfl rfl rfl (by decide) (by decide)

/-- C5 counterexample: a statement whose only row fails validation still
advances the backend's key counter by one — `next_key_id` is called before
constraint validation — although the row never reaches the prepared-write
list and nothing is committed.  The claim says the counter is left unchanged
for a row that fails validation. -/
theorem key_advances_for_failing_row :
    execute evalReject "q"
      ⟨"s", "t", [], SetExpr.values [[Expr.value (Value.number 5)]]⟩ badColStorage =
      (ExecResult.returnedOk,
        [Message.error
          (QueryError.constraintViolations [Violation.outOfRange "int2" "a" 1])],
        { badColStorage with keyCounter := badColStorage.keyCounter + 1 }) ∧
    badColStorage.committed = [] :=
  ⟨rfl, rfl⟩

/-- C5 (amended): the key counter advances once for every row that enters the
per-row loop — once per valid row that reaches the prepared-write list and
also once for the first row that fails validation — so after a statement with
`good.length` valid rows followed by a failing row the counter has advanced by
`good.length + 1` while nothing was committed. -/
theorem key_counter_advances_per_processed_row (eval : Nat → Option Value)
    (raw sc tn : String) (colNames : List String) (lines : List (List Expr))
    (st : Storage) (rows good rest : List (List Value)) (bad : List Value)
    (icols : List (Nat × ColumnDefinition)) (rec : List Datum)
    (errs : List (ConstraintError × ColumnDefinition))
    (hres : resolveRows eval lines = RowsRes.ok rows)
    (hschema : st.schemaExists sc = true)
    (htable : st.tableExists sc tn = true)
    (hcf : st.columnsFailure = none)
    (hcols : (if colNames.isEmpty then (enumFrom 0 (st.tableColumnList sc tn), ([] : List String))
              else resolveColumns (st.tableColumnList sc tn) colNames) = (icols, []))
    (hrows : rows = good ++ bad :: rest)
    (hgood : ∀ r ∈ good, rowValidB (st.tableColumnList sc tn) icols r = true)
    (hlen : bad.length ≤ (st.tableColumnList sc tn).length)
    (hchk : rowCheck (st.tableColumnList sc tn) icols bad = some (rec, errs))
    (hne : errs ≠ []) :
    (execute eval raw ⟨sc, tn, colNames, SetExpr.values lines⟩ st).2.2.keyCounter =
      st.keyCounter + good.length + 1 ∧
    (execute eval raw ⟨sc, tn, colNames, SetExpr.values lines⟩ st).2.2.committed =
      st.committed := by
  rw [execute_values_eq eval raw sc tn colNames lines st rows icols hres hschema htable hcf hcols]
  subst hrows
  rw [processRows_valid_run _ _ good (bad :: rest) hgood 0 st []]
  rw [processRows_first_invalid _ _ bad rest _ _ _ rec errs hlen hchk hne]
  simp [Nat.add_assoc]

/-- C5 witness: one valid row, then a failing row, against a table whose
second column rejects every value: the counter advances by two (one per row
that entered the loop) and nothing is committed. -/
theorem key_counter_advances_per_processed_row_witness :
    (execute evalReject "q"
      ⟨"s", "t", ["a"],
        SetExpr.values [[Expr.value (Value.number 1)], [Expr.value (Value.number 2)]]⟩
      mixedColStorage).2.2.keyCounter = mixedColStorage.keyCounter + 1 + 1 ∧
    (execute evalReject "q"
      ⟨"s", "t", ["a"],
        SetExpr.values [[Expr.value (Value.number 1)], [Expr.value (Value.number 2)]]⟩
      mixedColStorage).2.2.committed = mixedColStorage.committed :=
  key_counter_advances_per_processed_row evalReject "q" "s" "t" ["a"]
    [[Expr.value (Value.number 1)], [Expr.value (Value.number 2)]]
    mixedColStorage
    [[Value.number 1], [Value.number 2]] [[Value.number 1]] [] [Value.number 2]
    [(0, fussyColumn "a")] [Datum.nullDatum, Datum.nullDatum]
    [(ConstraintError.outOfRange, fussyColumn "a")]
    rfl rfl rfl rfl rfl rfl (by decide) (by decide) rfl (List.cons_ne_nil _ _)

/-! ### Lemmas about column resolution -/

theorem resolveColumns_missing (all : List ColumnDefinition) (ns : List String) :
    (resolveColumns all ns).2 = ns.filter (fun n => (findCol all n).isNone) := by
  induction ns with
  | nil => rfl
  | cons n ns ih =>
    simp only [resolveColumns, List.filter_cons]
    cases h : findCol all n <;> simp [h, ih]

theorem enumFrom_getq (l : List ColumnDefinition) :
    ∀ (i j : Nat), (enumFrom i l).get? j = (l.get? j).map (fun c => (i + j, c)) := by
  induction l with
  | nil => intro i j; simp [enumFrom]
  | cons c cs ih =>
    intro i j
    cases j with
    | zero => simp [enumFrom]
    | succ j =>
      simp only [enumFrom, List.get?_cons_succ, ih (i + 1) j]
      have : i + 1 + j = i + (j + 1) := by omega
      rw [this]

theorem resolveColumns_all_found (all : List ColumnDefinition) (ns : List String)
    (h : (resolveColumns all ns).2 = []) :
    (resolveColumns all ns).1.length = ns.length ∧
    ∀ j, (resolveColumns all ns).1.get? j = (ns.get? j).bind (findCol all) := by
  induction ns with
  | nil => simp [resolveColumns]
  | cons n ns ih =>
    simp only [resolveColumns] at h ⊢
    cases hf : findCol all n with
    | none => rw [hf] at h; simp at h
    | some ic =>
      rw [hf] at h
      simp only at h
      obtain ⟨hlen, hget⟩ := ih h
      refine ⟨by simp [hlen], ?_⟩
      intro j
      cases j with
      | zero => simp [hf]
      | succ j => simpa using hget j

/-- C6: when the explicit column list has unresolved names, the statement
fails with a single `ColumnNotFound` diagnostic whose name list is exactly
the sublist of the statement's listed names without a matching table column
— every unresolved name appears, nothing else does, and a duplicate-free
statement list yields a duplicate-free diagnostic — and storage is returned
unchanged: no key is consumed and nothing is validated or committed. -/
theorem unresolved_columns_single_diagnostic (eval : Nat → Option Value)
    (raw sc tn : String) (colNames : List String) (lines : List (List Expr))
    (st : Storage) (rows : List (List Value))
    (hres : resolveRows eval lines = RowsRes.ok rows)
    (hschema : st.schemaExists sc = true)
    (htable : st.tableExists sc tn = true)
    (hcf : st.columnsFailure = none)
    (hne : colNames ≠ [])
    (hmiss : (resolveColumns (st.tableColumnList sc tn) colNames).2 ≠ []) :
    execute eval raw ⟨sc, tn, colNames, SetExpr.values lines⟩ st =
      (ExecResult.returnedOk,
        [Message.error
          (QueryError.columnDoesNotExist
            (colNames.filter (fun n => (findCol (st.tableColumnList sc tn) n).isNone)))],
        st) ∧
    ((colNames.Nodup →
      (colNames.filter (fun n => (findCol (st.tableColumnList sc tn) n).isNone)).Nodup) ∧
     ∀ n, n ∈ colNames.filter (fun n => (findCol (st.tableColumnList sc tn) n).isNone) ↔
       n ∈ colNames ∧ findCol (st.tableColumnList sc tn) n = none) := by
  refine ⟨?_, fun hnd => hnd.filter _, fun n => ?_⟩
  · have hmiss' : (resolveColumns (st.tableColumnList sc tn) colNames).2.isEmpty = false := by
      cases hm : (resolveColumns (st.tableColumnList sc tn) colNames).2 with
      | nil => exact absurd hm hmiss
      | cons a l => rfl
    simp [execute, hres, hschema, htable, Storage.tableColumns, hcf, hne, hmiss',
      ← resolveColumns_missing]
  · simp [List.mem_filter, Option.isNone_iff_eq_none]

/-- C6 witness: the explicit list `["a", "z"]` against a table with columns
`a`, `b`: the diagnostic enumerates exactly `["z"]`, and storage is returned
unchanged. -/
theorem unresolved_columns_single_diagnostic_witness :
    (execute evalReject "q"
      ⟨"s", "t", ["a", "z"], SetExpr.values [[Expr.value (Value.number 1)]]⟩
      twoColStorage =
      (ExecResult.returnedOk,
        [Message.error (QueryError.columnDoesNotExist ["z"])], twoColStorage)) ∧
    ((["z"] : List String).Nodup ∧
     ("z" ∈ (["a", "z"] : List String).filter
        (fun n => (findCol (twoColStorage.tableColumnList "s" "t") n).isNone) ↔
       "z" ∈ (["a", "z"] : List String) ∧
         findCol (twoColStorage.tableColumnList "s" "t") "z" = none)) :=
  have h := unresolved_columns_single_diagnostic evalReject "q" "s" "t" ["a", "z"]
    [[Expr.value (Value.number 1)]] twoColStorage [[Value.number 1]]
    rfl rfl rfl rfl (by decide) (by decide)
  ⟨h.1, h.2.1 (by decide), h.2.2 "z"⟩

/-- C7: the column mapping computed by the insert path — the identity
enumeration of the table's columns when the statement lists no columns, and
the resolved list otherwise — lines value-list cell `j` up with the `j`-th
entry of the mapping: the identity mapping's `j`-th entry is `(j, column j)`,
and when every listed name resolves, the mapping has one entry per listed
name and its `j`-th entry is the resolution of the `j`-th listed name, so the
mapping preserves the statement's listed order. -/
theorem column_mapping_preserves_statement_order (allColumns : List ColumnDefinition)
    (colNames : List String) :
    (∀ j, (enumFrom 0 allColumns).get? j = (allColumns.get? j).map (fun c => (j, c))) ∧
    ((resolveColumns allColumns colNames).2 = [] →
      (resolveColumns allColumns colNames).1.length = colNames.length ∧
      ∀ j, (resolveColumns allColumns colNames).1.get? j =
        (colNames.get? j).bind (findCol allColumns)) := by
  constructor
  · intro j
    simpa using enumFrom_getq allColumns 0 j
  · intro h
    exact resolveColumns_all_found allColumns colNames h

/-- C7 witness: for the table columns `[a, b]` and the explicit list `["b"]`
(which fully resolves), the identity mapping's entry 0 is `(0, a)` and the
explicit mapping's entry 0 is the resolution of `"b"`. -/
theorem column_mapping_preserves_statement_order_witness :
    ((enumFrom 0 [intColumn "a", intColumn "b"]).get? 0 =
      (([intColumn "a", intColumn "b"] : List ColumnDefinition).get? 0).map
        (fun c => (0, c))) ∧
    (resolveColumns [intColumn "a", intColumn "b"] ["b"]).1.length =
      (["b"] : List String).length ∧
    (resolveColumns [intColumn "a", intColumn "b"] ["b"]).1.get? 0 =
      ((["b"] : List String).get? 0).bind (findCol [intColumn "a", intColumn "b"]) :=
  ⟨(column_mapping_preserves_statement_order [intColumn "a", intColumn "b"] ["b"]).1 0,
   ((column_mapping_preserves_statement_order [intColumn "a", intColumn "b"] ["b"]).2 rfl).1,
   ((column_mapping_preserves_statement_order [intColumn "a", intColumn "b"] ["b"]).2 rfl).2 0⟩

/-- C8 counterexample: an insert into the existing table `s.t` whose single
row is a `NULL` literal panics during validation and sends zero terminal
messages — not exactly one — so "exactly one terminal message for every
outcome of the statement" fails on the panicking outcomes. -/
theorem panicking_insert_sends_no_message :
    (execute evalReject "q"
      ⟨"s", "t", [], SetExpr.values [[Expr.value Value.null]]⟩ twoColStorage).1 =
        ExecResult.panicked ∧
    (execute evalReject "q"
      ⟨"s", "t", [], SetExpr.values [[Expr.value Value.null]]⟩ twoColStorage).2.1 = [] :=
  ⟨rfl, rfl⟩

/-- C8 (amended): a statement sends exactly one terminal message when the
call returns `Ok` — `RecordsInserted(n)`, one error diagnostic, or the
external evaluator's own report when it rejects a binary expression — and
zero messages for every other outcome: a panicking execution sends none, and
a backend failure of `table_columns` or `insert_into` is returned to the
caller as `Err` (the spec's StorageFailure outcome) with no client event. -/
theorem single_terminal_message_per_outcome (eval : Nat → Option Value)
    (raw : String) (ti : TableInserts) (st : Storage) :
    ((execute eval raw ti st).1 = ExecResult.returnedOk →
      (execute eval raw ti st).2.1.length = 1) ∧
    ((execute eval raw ti st).1 ≠ ExecResult.returnedOk →
      (execute eval raw ti st).2.1 = []) := by
  rcases ti with ⟨sc, tn, cols, body⟩
  cases body with
  | otherBody => simp [execute]
  | values lines =>
    cases hres : resolveRows eval lines with
    | err m => simp [execute, hres]
    | evalErr => simp [execute, hres]
    | panicked => simp [execute, hres]
    | ok rows =>
      by_cases h1 : st.schemaExists sc
      · by_cases h2 : st.tableExists sc tn
        · cases hcf : st.columnsFailure with
          | some e => simp [execute, hres, h1, h2, Storage.tableColumns, hcf]
          | none =>
            rcases hcs : (if cols = [] then (enumFrom 0 (st.tableColumnList sc tn), ([] : List String))
                          else resolveColumns (st.tableColumnList sc tn) cols) with ⟨icols, miss⟩
            cases miss with
            | nil =>
              cases hout : processRows (st.tableColumnList sc tn) icols rows 0 st [] with
              | prepared tw st' =>
                cases hins : st'.insertInto sc tn tw with
                | error e =>
                  simp [execute, hres, h1, h2, Storage.tableColumns, hcf, hcs, hout, hins]
                | ok p =>
                  obtain ⟨size, st''⟩ := p
                  simp [execute, hres, h1, h2, Storage.tableColumns, hcf, hcs, hout, hins]
              | diag m st' =>
                simp [execute, hres, h1, h2, Storage.tableColumns, hcf, hcs, hout]
              | panicked st' =>
                simp [execute, hres, h1, h2, Storage.tableColumns, hcf, hcs, hout]
            | cons mn ms => simp [execute, hres, h1, h2, Storage.tableColumns, hcf, hcs]
        · simp [execute, hres, h1, h2]
      · simp [execute, hres, h1]

/-- C8 witness: a successful single-row insert sends exactly one message; the
same statement against a backend whose `insert_into` fails returns the
failure to the caller (`Err`) and sends zero messages. -/
theorem single_terminal_message_per_outcome_witness :
    (execute evalReject "q"
      ⟨"s", "t", [], SetExpr.values [[Expr.value (Value.number 1)]]⟩
      twoColStorage).2.1.length = 1 ∧
    (execute evalReject "q"
      ⟨"s", "t", [], SetExpr.values [[Expr.value (Value.number 1)]]⟩
      insertFailStorage).1 = ExecResult.returnedErr "io error" ∧
    (execute evalReject "q"
      ⟨"s", "t", [], SetExpr.values [[Expr.value (Value.number 1)]]⟩
      insertFailStorage).2.1 = [] :=
  ⟨(single_terminal_message_per_outcome evalReject "q"
      ⟨"s", "t", [], SetExpr.values [[Expr.value (Value.number 1)]]⟩ twoColStorage).1 rfl,
   rfl,
   (single_terminal_message_per_outcome evalReject "q"
      ⟨"s", "t", [], SetExpr.values [[Expr.value (Value.number 1)]]⟩ insertFailStorage).2
     (by decide)⟩

/-! ### Lemmas about materialization of one row -/

theorem resolveLine_literal (eval : Nat → Option Value) (row : List Value) :
    resolveLine eval (row.map Expr.value) = LineRes.ok row := by
  induction row with
  | nil => rfl
  | cons v vs ih => simp [resolveLine, resolveCell, ih]

theorem resolveRows_single_literal (eval : Nat → Option Value) (row : List Value) :
    resolveRows eval [row.map Expr.value] = RowsRes.ok [row] := by
  simp [resolveRows, resolveLine_literal]

theorem take_zip_eq_zip (l1 : List Value) (l2 : List (Nat × ColumnDefinition)) :
    (l1.take l2.length).zip l2 = l1.zip l2 := by
  induction l1 generalizing l2 with
  | nil => simp
  | cons a l1 ih =>
    cases l2 with
    | nil => simp
    | cons b l2 => simpa using ih l2

theorem validateCells_unset (j : Nat) (cells : List (Value × Nat × ColumnDefinition)) :
    ∀ (record : List Datum) (errors : List (ConstraintError × ColumnDefinition))
      (rec : List Datum) (errs : List (ConstraintError × ColumnDefinition)),
    (∀ c ∈ cells, c.2.1 ≠ j) →
    validateCells cells record errors = some (rec, errs) →
    rec[j]? = record[j]? := by
  induction cells with
  | nil =>
    intro record errors rec errs _ h
    simp [validateCells] at h
    rw [h.1]
  | cons c rest ih =>
    obtain ⟨item, index, cd⟩ := c
    intro record errors rec errs hne h
    have hidx : index ≠ j := by
      have := hne (item, index, cd) (by simp)
      simpa using this
    have hrest : ∀ c ∈ rest, c.2.1 ≠ j := fun c hc => hne c (by simp [hc])
    simp only [validateCells] at h
    split at h
    · exact absurd h (by simp)
    · split at h
      · rw [ih _ _ _ _ hrest h]
        exact List.getElem?_set_ne hidx
      · exact ih _ _ _ _ hrest h

/-- C10: a value-list line with more cells than the statement's resolved
target-column list but no more than the table's column count is accepted
silently: the statement commits the row built from the first
`indexColumns.length` cells only (executing it is indistinguishable from
executing the statement with the extra trailing cells removed), sends the
success event, and every table position not named by the mapping stays
null in the committed record. -/
theorem extra_cells_beyond_mapping_discarded (eval : Nat → Option Value)
    (raw sc tn : String) (colNames : List String) (st : Storage)
    (row : List Value) (icols : List (Nat × ColumnDefinition)) (rec : List Datum)
    (hschema : st.schemaExists sc = true)
    (htable : st.tableExists sc tn = true)
    (hcf : st.columnsFailure = none)
    (hif : st.insertFailure = none)
    (hcols : (if colNames.isEmpty then (enumFrom 0 (st.tableColumnList sc tn), ([] : List String))
              else resolveColumns (st.tableColumnList sc tn) colNames) = (icols, []))
    (hlen : row.length ≤ (st.tableColumnList sc tn).length)
    (_hmore : icols.length < row.length)
    (hchk : rowCheck (st.tableColumnList sc tn) icols row = some (rec, [])) :
    (execute eval raw ⟨sc, tn, colNames, SetExpr.values [row.map Expr.value]⟩ st =
      (ExecResult.returnedOk, [Message.event 1],
        { st with keyCounter := st.keyCounter + 1,
                  committed := st.committed ++ [(sc, tn, [(st.keyCounter, rec)])] })) ∧
    (execute eval raw
        ⟨sc, tn, colNames, SetExpr.values [(row.take icols.length).map Expr.value]⟩ st =
      execute eval raw ⟨sc, tn, colNames, SetExpr.values [row.map Expr.value]⟩ st) ∧
    (∀ j, j < (st.tableColumnList sc tn).length → (∀ p ∈ icols, p.1 ≠ j) →
      rec[j]? = some Datum.nullDatum) := by
  have hchk' : rowCheck (st.tableColumnList sc tn) icols (row.take icols.length) =
      some (rec, []) := by
    unfold rowCheck
    rw [take_zip_eq_zip]
    exact hchk
  have hexec : ∀ (r : List Value),
      r.length ≤ (st.tableColumnList sc tn).length →
      rowCheck (st.tableColumnList sc tn) icols r = some (rec, []) →
      execute eval raw ⟨sc, tn, colNames, SetExpr.values [r.map Expr.value]⟩ st =
        (ExecResult.returnedOk, [Message.event 1],
          { st with keyCounter := st.keyCounter + 1,
                    committed := st.committed ++ [(sc, tn, [(st.keyCounter, rec)])] }) := by
    intro r hrl hrc
    rw [execute_values_eq eval raw sc tn colNames _ st [r] icols
      (resolveRows_single_literal eval r) hschema htable hcf hcols]
    have hstep : processRows (st.tableColumnList sc tn) icols [r] 0 st [] =
        RowsOutcome.prepared [(st.keyCounter, rec)]
          { st with keyCounter := st.keyCounter + 1 } := by
      simp only [processRows]
      rw [if_neg (by omega), hrc]
      simp [processRows]
    rw [hstep]
    simp [Storage.insertInto, hif]
  refine ⟨hexec row hlen hchk, ?_, ?_⟩
  · rw [hexec row hlen hchk,
      hexec (row.take icols.length) (by simp [List.length_take]; omega) hchk']
  · intro j hj hnotin
    have hcells : ∀ c ∈ row.zip icols, c.2.1 ≠ j := by
      intro c hc
      have hmem := (List.of_mem_zip (a := c.1) (b := c.2) (by simpa using hc)).2
      exact hnotin c.2 hmem
    have hrw := validateCells_unset j (row.zip icols)
      (List.replicate (st.tableColumnList sc tn).length Datum.nullDatum) [] rec []
      hcells hchk
    rw [hrw, List.getElem?_replicate, if_pos hj]

/-- C10 witness: explicit column list `["a"]` (mapping length 1) with a
two-cell line against the two-column table `s.t`: the second cell is
discarded, the row commits as `(1, NULL)` with the success event, and the
truncated statement executes identically. -/
theorem extra_cells_beyond_mapping_discarded_witness :
    (execute evalReject "q"
      ⟨"s", "t", ["a"],
        SetExpr.values [[Expr.value (Value.number 1), Expr.value (Value.number 2)]]⟩
      twoColStorage =
      (ExecResult.returnedOk, [Message.event 1],
        { twoColStorage with
          keyCounter := 1
          committed :=
            [("s", "t", [(0, [Datum.val (Value.number 1), Datum.nullDatum])])] })) ∧
    (execute evalReject "q"
      ⟨"s", "t", ["a"],
        SetExpr.values
          [([Value.number 1, Value.number 2].take 1).map Expr.value]⟩ twoColStorage =
      execute evalReject "q"
        ⟨"s", "t", ["a"],
          SetExpr.values [[Expr.value (Value.number 1), Expr.value (Value.number 2)]]⟩
        twoColStorage) ∧
    (∀ j, j < (twoColStorage.tableColumnList "s" "t").length →
      (∀ p ∈ [(0, intColumn "a")], p.1 ≠ j) →
      ([Datum.val (Value.number 1), Datum.nullDatum] : List Datum)[j]? =
        some Datum.nullDatum) :=
  extra_cells_beyond_mapping_discarded evalReject "q" "s" "t" ["a"] twoColStorage
    [Value.number 1, Value.number 2] [(0, intColumn "a")]
    [Datum.val (Value.number 1), Datum.nullDatum]
    rfl rfl rfl rfl rfl (by decide) (by decide) rfl

end InsertModel
